import Mathlib

/-!
# Verification of the rustdns zone-file row parser (`src/zones/mod.rs`)

This file shallowly embeds the tokenizer + nom-based row grammar +
diagnostics of the zone-file parsing module and proves/refutes the frozen
claims about it.

The embedding conventions:

* `Tokens` is a list of positioned tokens (the `Tokens` slice type of the
  `tokens` submodule, which is not part of the provided sources; it is
  modelled from the spec: kind `Word`/`Whitespace`, text, line/column and
  the full line text for error rendering).
* nom's `IResult<I, O, E>` with `E = VerboseError` becomes
  `Except NomErr (Tokens × O)`; `Err::Error` / `Err::Failure` /
  `Err::Incomplete` become the three `NomErr` constructors.
* Each nom combinator used by the source is given its nom 7 semantics
  (`alt` accumulates errors with `VerboseError::or`, which keeps the second
  error, and finally appends an `Alt` entry at the original input; `cut`
  turns `Error` into `Failure`; `permutation` uses the pass-based loop of
  nom's implementation; `all_consuming` demands an empty rest).
* `Duration` is modelled as a number of whole seconds (`Duration::new(i, 0)`).
-/

namespace RustDns

/-- Token kinds produced by the tokenizer (`TokenType` in the source). -/
inductive TokenType
  | Word
  | Whitespace
deriving DecidableEq, Repr

/-- Source position data carried by a token (`nom_locate::LocatedSpan`):
1-based line, 1-based utf8 column, the token's text (`fragment`) and the
text of its line for error rendering (`get_line_beginning`). -/
structure Pos where
  line : Nat
  col : Nat
  fragment : String
  lineText : String
deriving DecidableEq, Repr

/-- One token: a classified, positioned slice of the source.
Modelled from the spec: the `tokens` submodule is not under `src/`. -/
structure Token where
  kind : TokenType
  pos : Pos
deriving DecidableEq, Repr

/-- Embedding of `Token::as_str`: the raw text of the token. -/
def Token.as_str (t : Token) : String := t.pos.fragment

/-- The grammar's input cursor: an ordered slice of tokens. -/
abbrev Tokens := List Token

/-- Embedding of `nom::error::VerboseErrorKind`: expected char, named context, or a raw
nom `ErrorKind` (represented by its name). -/
inductive VEKind
  | Char (c : Char)
  | Ctx (s : String)
  | Nom (kind : String)
deriving DecidableEq, Repr

/-- Embedding of `nom::error::VerboseError`: the accumulated failure trace. -/
structure VError where
  errors : List (Tokens × VEKind)
deriving DecidableEq, Repr

/-- Embedding of `VerboseError::from_error_kind`. -/
def VError.fromKind (i : Tokens) (k : String) : VError := ⟨[(i, .Nom k)]⟩

/-- Embedding of `VerboseError::append`: push a `Nom` entry at the end. -/
def VError.push (e : VError) (i : Tokens) (k : String) : VError :=
  ⟨e.errors ++ [(i, .Nom k)]⟩

/-- Embedding of `VerboseError::add_context`: push a `Context` entry at the end. -/
def VError.ctx (e : VError) (i : Tokens) (s : String) : VError :=
  ⟨e.errors ++ [(i, .Ctx s)]⟩

/-- Embedding of `VerboseError::or`: keeps the second ("other") error. -/
def VError.orE (_ : VError) (other : VError) : VError := other

/-- Embedding of `nom::Err`: recoverable `Error`, unrecoverable `Failure`, or
`Incomplete`. -/
inductive NomErr
  | error (e : VError)
  | failure (e : VError)
  | incomplete
deriving DecidableEq, Repr

/-- Embedding of `nom::IResult<Tokens, O, VerboseError>`. -/
abbrev IResult (O : Type) := Except NomErr (Tokens × O)

/-- A parser over the token cursor. -/
abbrev Parser (O : Type) := Tokens → IResult O

/-- Is the result a success? -/
def isOk {O : Type} : IResult O → Bool
  | .ok _ => true
  | .error _ => false

/-- Is the result a recoverable `Err::Error`? -/
def isSoftError {O : Type} : IResult O → Bool
  | .error (.error _) => true
  | _ => false

/-- Is the result an unrecoverable `Err::Failure` (a hard commit)? -/
def isHardError {O : Type} : IResult O → Bool
  | .error (.failure _) => true
  | _ => false

/-- The unconsumed rest of a successful parse. -/
def remainder {O : Type} : IResult O → Option Tokens
  | .ok (i, _) => some i
  | .error _ => none

/-- The token slice of the first (deepest) entry of a failure trace. -/
def errHeadTokens {O : Type} : IResult O → Option Tokens
  | .error (.error e) => e.errors.head?.map (fun p => p.1)
  | .error (.failure e) => e.errors.head?.map (fun p => p.1)
  | _ => none

/-! ## nom combinators (nom 7 semantics, specialised to `Tokens`) -/

/-- Embedding of `tag(TokenType)` on the `Tokens` input: matches exactly one token of
the given kind, returning the one-token slice. Modelled from the spec: the
`Compare<TokenType>` impl lives in the missing `tokens` submodule; on
mismatch or exhausted input the complete-variant `tag` fails with
`ErrorKind::Tag` at the current input. -/
def tagP (tt : TokenType) : Parser Tokens := fun input =>
  match input with
  | t :: rest =>
    if t.kind = tt then .ok (rest, [t])
    else .error (.error (VError.fromKind input "Tag"))
  | [] => .error (.error (VError.fromKind input "Tag"))

/-- Embedding of `nom::combinator::map`. -/
def mapP {O O2 : Type} (f : Parser O) (g : O → O2) : Parser O2 := fun input =>
  match f input with
  | .ok (i, o) => .ok (i, g o)
  | .error e => .error e

/-- Embedding of `nom::combinator::map_res` with a `VerboseError`: an external error is
collapsed into `ErrorKind::MapRes` at the original input. -/
def map_resP {O O2 : Type} (f : Parser O) (g : O → Option O2) : Parser O2 := fun input =>
  match f input with
  | .ok (i, o) =>
    match g o with
    | some o2 => .ok (i, o2)
    | none => .error (.error (VError.fromKind input "MapRes"))
  | .error e => .error e

/-- Embedding of `nom::combinator::value`. -/
def valueP {O O2 : Type} (v : O2) (f : Parser O) : Parser O2 := mapP f (fun _ => v)

/-- Embedding of `nom::combinator::verify`: failure is `ErrorKind::Verify` at the
original input. -/
def verifyP {O : Type} (f : Parser O) (pred : O → Bool) : Parser O := fun input =>
  match f input with
  | .ok (i, o) =>
    if pred o then .ok (i, o)
    else .error (.error (VError.fromKind input "Verify"))
  | .error e => .error e

/-- Embedding of `nom::error::context`: names the enclosing grammar production in the
trace, for both `Error` and `Failure`. -/
def contextP {O : Type} (name : String) (f : Parser O) : Parser O := fun input =>
  match f input with
  | .ok r => .ok r
  | .error (.error e) => .error (.error (e.ctx input name))
  | .error (.failure e) => .error (.failure (e.ctx input name))
  | .error .incomplete => .error .incomplete

/-- Embedding of `nom::combinator::cut`: turns a recoverable `Error` into a `Failure`,
committing the surrounding `alt`. -/
def cutP {O : Type} (f : Parser O) : Parser O := fun input =>
  match f input with
  | .error (.error e) => .error (.failure e)
  | r => r

/-- Embedding of `nom::combinator::success`: consumes nothing, returns the value. -/
def successP {O : Type} (v : O) : Parser O := fun input => .ok (input, v)

/-- Embedding of `nom::sequence::pair`. -/
def pairP {O1 O2 : Type} (f : Parser O1) (g : Parser O2) : Parser (O1 × O2) := fun input =>
  match f input with
  | .ok (i1, o1) =>
    match g i1 with
    | .ok (i2, o2) => .ok (i2, (o1, o2))
    | .error e => .error e
  | .error e => .error e

/-- Embedding of `nom::sequence::preceded`. -/
def precededP {O1 O2 : Type} (f : Parser O1) (g : Parser O2) : Parser O2 :=
  mapP (pairP f g) (fun p => p.2)

/-- Embedding of `nom::sequence::terminated`. -/
def terminatedP {O1 O2 : Type} (f : Parser O1) (g : Parser O2) : Parser O1 :=
  mapP (pairP f g) (fun p => p.1)

/-- Embedding of `nom::sequence::delimited`. -/
def delimitedP {O1 O2 O3 : Type} (a : Parser O1) (b : Parser O2) (c : Parser O3) :
    Parser O2 :=
  precededP a (terminatedP b c)

/-- A three-element `nom::sequence::tuple`. -/
def tuple3P {O1 O2 O3 : Type} (f : Parser O1) (g : Parser O2) (h : Parser O3) :
    Parser (O1 × O2 × O3) := fun input =>
  match f input with
  | .ok (i1, o1) =>
    match pairP g h i1 with
    | .ok (i2, o23) => .ok (i2, (o1, o23))
    | .error e => .error e
  | .error e => .error e

/-- Embedding of `nom::branch::alt` over a list of alternatives: try in order; on an
`Error` remember it via `VerboseError::or` (keeping the newer error) and
continue; any other result is returned as-is.  When all alternatives have
errored, the accumulated error gets an `Alt` entry at the original input. -/
def altGo {O : Type} (acc : Option VError) (ps : List (Parser O)) : Parser O :=
  fun input =>
  match ps with
  | [] =>
    match acc with
    | some a => .error (.error (a.push input "Alt"))
    | none => .error (.error (VError.fromKind input "Alt"))
  | p :: rest =>
    match p input with
    | .error (.error e) =>
      altGo (some (match acc with
        | some a => a.orE e
        | none => e)) rest input
    | r => r

/-- Embedding of `nom::branch::alt`. -/
def altP {O : Type} (ps : List (Parser O)) : Parser O := altGo none ps

/-- Embedding of `nom::branch::permutation` for two parsers: the pass-based loop of
nom 7.  Each pass tries the not-yet-satisfied parsers in order; a success
restarts the pass on the advanced input; a pass with no progress reports
`ErrorKind::Permutation` at the current input wrapping the pass's last
error; `Failure`/`Incomplete` propagate immediately. -/
def permutationP {O1 O2 : Type} (f : Parser O1) (g : Parser O2) :
    Parser (O1 × O2) := fun input =>
  match f input with
  | .ok (i1, o1) =>
    match g i1 with
    | .ok (i2, o2) => .ok (i2, (o1, o2))
    | .error (.error e) => .error (.error (e.push i1 "Permutation"))
    | .error e => .error e
  | .error (.error ef) =>
    match g input with
    | .ok (i1, o2) =>
      match f i1 with
      | .ok (i2, o1) => .ok (i2, (o1, o2))
      | .error (.error e) => .error (.error (e.push i1 "Permutation"))
      | .error e => .error e
    | .error (.error eg) =>
      .error (.error ((ef.orE eg).push input "Permutation"))
    | .error e => .error e
  | .error e => .error e

/-- Embedding of `some` from the source: runs the parser and wraps a success in
`Option::Some`; a failure stays a failure (it never yields `None`). -/
def someP {O : Type} (f : Parser O) : Parser (Option O) := fun input =>
  match f input with
  | .ok (i, o) => .ok (i, some o)
  | .error e => .error e

/-- Embedding of `nom::multi::many0` with explicit fuel (the loop consumes at least one
token per iteration thanks to the no-progress guard, so `length + 1` fuel
is never exhausted). A success that consumes nothing is an
`ErrorKind::Many0` error, as in nom's complete `many0`. -/
def many0F {O : Type} (f : Parser O) : Nat → Parser (List O)
  | 0, i => .ok (i, [])
  | fuel + 1, i =>
    match f i with
    | .error (.error _) => .ok (i, [])
    | .error e => .error e
    | .ok (i2, o) =>
      if i2.length = i.length then
        .error (.error (VError.fromKind i2 "Many0"))
      else
        match many0F f fuel i2 with
        | .ok (i3, os) => .ok (i3, o :: os)
        | .error e => .error e

/-- Embedding of `nom::multi::many0`. -/
def many0P {O : Type} (f : Parser O) : Parser (List O) := fun i =>
  many0F f (i.length + 1) i

/-- Embedding of `nom::combinator::all_consuming`: the rest must be empty, otherwise
`ErrorKind::Eof` at the rest. -/
def all_consumingP {O : Type} (f : Parser O) : Parser O := fun input =>
  match f input with
  | .ok (i, o) =>
    if i.length = 0 then .ok (i, o)
    else .error (.error (VError.fromKind i "Eof"))
  | .error e => .error e

/-! ## Tokenizer

Modelled from the spec: the `tokens` submodule is not under `src/`.
"Whitespace runs (spaces/tabs, not newlines) become distinct `Whitespace`
tokens; maximal runs of non-whitespace ... characters become `Word`
tokens. Each token retains its absolute line and column", and each token
carries "the full line text for error rendering". The claims only involve
single-line inputs, so the line number is always 1 and the column is the
1-based character offset. -/

/-- Is this character line-internal whitespace (space or tab)? -/
def isWsChar (c : Char) : Bool := c == ' ' || c == '\t'

/-- The token kind a character belongs to. -/
def charKind (c : Char) : TokenType :=
  if isWsChar c then .Whitespace else .Word

/-- Build one token from an accumulated maximal run. -/
def mkTok (lt : String) (k : TokenType) (col : Nat) (run : List Char) : Token :=
  ⟨k, ⟨1, col, String.mk run, lt⟩⟩

/-- Tokenizer loop: `run` is the current (not yet emitted) maximal run of
kind `k` starting at column `col`; `cur` is the column of the next
character. -/
def tokGo (lt : String) : List Char → TokenType → Nat → List Char → Nat → List Token
  | [], k, col, run, _ => [mkTok lt k col run]
  | c :: cs, k, col, run, cur =>
    if charKind c = k then
      tokGo lt cs k col (run ++ [c]) (cur + 1)
    else
      mkTok lt k col run :: tokGo lt cs (charKind c) cur [c] (cur + 1)

/-- Embedding of `tokenise`: segment one line of input into positioned tokens. -/
def tokenise (input : String) : Tokens :=
  match input.toList with
  | [] => []
  | c :: cs => tokGo input cs (charKind c) 1 [c] 2

/-! ## External data types

`crate::Class`, `crate::Resource` and `crate::resource::{MX, SOA}` are
declared outside the provided sources; they are modelled from the spec's
data model (§3). -/

/-- Modelled from the spec: `ClassEnum` is the closed set {IN, CS, CH, HS}
(`crate::Class` is not under `src/`). -/
inductive Class
  | IN
  | CS
  | CH
  | HS
deriving DecidableEq, Repr

/-- Modelled from the spec: `Class::from_str` is an exact, case-sensitive
keyword lookup (a strum-derived conversion in the real crate). -/
def Class.from_str (s : String) : Option Class :=
  if s = "IN" then some .IN
  else if s = "CS" then some .CS
  else if s = "CH" then some .CH
  else if s = "HS" then some .HS
  else none

/-- An IPv4 address as four octets. -/
structure Ipv4 where
  a : Nat
  b : Nat
  c : Nat
  d : Nat
deriving DecidableEq, Repr

/-- An IPv6 address as eight 16-bit groups. -/
structure Ipv6 where
  groups : List Nat
deriving DecidableEq, Repr

/-- Split a character list on a separator character. -/
def splitOnChar (sep : Char) : List Char → List (List Char)
  | [] => [[]]
  | c :: cs =>
    let r := splitOnChar sep cs
    if c = sep then [] :: r
    else
      match r with
      | x :: xs => (c :: x) :: xs
      | [] => [[c]]

/-- Digit value of a decimal character, if any. -/
def digitVal (c : Char) : Option Nat :=
  if '0' ≤ c ∧ c ≤ '9' then some (c.toNat - '0'.toNat) else none

/-- Value of a nonempty all-decimal character run. -/
def decValue : List Char → Option Nat
  | [] => none
  | cs =>
    cs.foldl (fun acc c =>
      match acc, digitVal c with
      | some n, some d => some (n * 10 + d)
      | _, _ => none) (some 0)

/-- Modelled from the spec/std: one dotted-quad component of
`Ipv4Addr::from_str` — 1 to 3 decimal digits, value ≤ 255, no leading
zeros. -/
def parseOctet (cs : List Char) : Option Nat :=
  match decValue cs with
  | none => none
  | some n =>
    if cs.length = 0 ∨ 3 < cs.length then none
    else if 1 < cs.length ∧ cs.headD '0' = '0' then none
    else if 255 < n then none
    else some n

/-- Modelled from the spec/std: `Ipv4Addr::from_str`, the standard
textual-address grammar (four dot-separated decimal octets). -/
def Ipv4.from_str (s : String) : Option Ipv4 :=
  match (splitOnChar '.' s.toList).mapM parseOctet with
  | some [a, b, c, d] => some ⟨a, b, c, d⟩
  | _ => none

/-- Hex digit value of a character, if any. -/
def hexVal (c : Char) : Option Nat :=
  if '0' ≤ c ∧ c ≤ '9' then some (c.toNat - '0'.toNat)
  else if 'a' ≤ c ∧ c ≤ 'f' then some (c.toNat - 'a'.toNat + 10)
  else if 'A' ≤ c ∧ c ≤ 'F' then some (c.toNat - 'A'.toNat + 10)
  else none

/-- Value of a nonempty 1-to-4 hex-digit group (≤ 0xffff). -/
def parseHexGroup (cs : List Char) : Option Nat :=
  if cs.length = 0 ∨ 4 < cs.length then none
  else
    cs.foldl (fun acc c =>
      match acc, hexVal c with
      | some n, some d => some (n * 16 + d)
      | _, _ => none) (some 0)

/-- Split a character list on the first occurrence of `"::"`, if any. -/
def splitDoubleColon : List Char → Option (List Char × List Char)
  | [] => none
  | [_] => none
  | a :: b :: rest =>
    if a = ':' ∧ b = ':' then some ([], rest)
    else
      match splitDoubleColon (b :: rest) with
      | some (l, r) => some (a :: l, r)
      | none => none

/-- Parse a colon-separated list of hex groups (an empty list of
characters yields no groups). -/
def parseGroups (cs : List Char) : Option (List Nat) :=
  match cs with
  | [] => some []
  | _ => (splitOnChar ':' cs).mapM parseHexGroup

/-- Modelled from the spec/std: `Ipv6Addr::from_str`, the standard
textual-address grammar — eight colon-separated 16-bit hex groups, with at
most one `::` run compression (embedded IPv4 suffixes are omitted; no
claim exercises them). -/
def Ipv6.from_str (s : String) : Option Ipv6 :=
  let cs := s.toList
  match splitDoubleColon cs with
  | some (l, r) =>
    match parseGroups l, parseGroups r with
    | some gl, some gr =>
      if gl.length + gr.length < 8 then
        some ⟨gl ++ List.replicate (8 - gl.length - gr.length) 0 ++ gr⟩
      else none
    | _, _ => none
  | none =>
    match parseGroups cs with
    | some gs => if gs.length = 8 then some ⟨gs⟩ else none
    | none => none

/-- Modelled from the spec: `MX` resource data (`crate::resource::MX`):
a `u16` preference and an exchange domain. -/
structure MX where
  preference : Nat
  exchange : String
deriving DecidableEq, Repr

/-- Modelled from the spec: `SOA` resource data (`crate::resource::SOA`):
mname, rname, a `u32` serial and four durations (seconds). -/
structure SOA where
  mname : String
  rname : String
  serial : Nat
  refresh : Nat
  retry : Nat
  expire : Nat
  minimum : Nat
deriving DecidableEq, Repr

/-- Modelled from the spec: the closed tagged union `crate::Resource` over
the seven supported resource types. -/
inductive Resource
  | A (addr : Ipv4)
  | AAAA (addr : Ipv6)
  | NS (name : String)
  | CNAME (name : String)
  | PTR (name : String)
  | MX (mx : MX)
  | SOA (soa : SOA)
deriving DecidableEq, Repr

/-- Parse a decimal string as Rust's `u*::from_str` does: an optional
leading `+`, then one or more decimal digits, value below `bound`. -/
def parseUInt (bound : Nat) (s : String) : Option Nat :=
  let cs := s.toList
  let cs := match cs with
    | '+' :: rest => rest
    | other => other
  match decValue cs with
  | some n => if n < bound then some n else none
  | none => none

/-- Bound `2^16`, the bound of `u16` (the `MX` preference field). -/
def U16 : Nat := 65536

/-- Bound `2^32`, the bound of `u32` (the `SOA` serial field). -/
def U32 : Nat := 4294967296

/-- Bound `2^64`, the bound of `u64` (duration seconds). -/
def U64 : Nat := 18446744073709551616

/-! ## Primitive field parsers (`src/zones/mod.rs`) -/

/-- The head token of a one-token slice produced by `tag` (Rust indexes
`t[0]`; the slice is nonempty wherever this is used). -/
def hd (ts : Tokens) : Token := ts.headD ⟨.Word, ⟨0, 0, "", ""⟩⟩

/-- Embedding of `ipv4_addr`: one `Word` parsed with `Ipv4Addr::from_str`. -/
def ipv4_addr : Parser Ipv4 :=
  contextP "IPv4 address"
    (map_resP (tagP .Word) (fun t => Ipv4.from_str (hd t).as_str))

/-- Embedding of `ipv6_addr`: one `Word` parsed with `Ipv6Addr::from_str`. -/
def ipv6_addr : Parser Ipv6 :=
  contextP "IPv6 address"
    (map_resP (tagP .Word) (fun t => Ipv6.from_str (hd t).as_str))

/-- Embedding of `keyword`: one `Word` token whose text equals the given word. -/
def keyword (word : String) : Parser Tokens :=
  verifyP (tagP .Word) (fun ts => (hd ts).as_str == word)

/-- Embedding of `prefixed`: consume and discard `keyword(prefix)` plus one whitespace,
then run the parser. -/
def prefixed {O : Type} (pre : String) (f : Parser O) : Parser O :=
  precededP (pairP (keyword pre) (tagP .Whitespace)) f

/-- Embedding of `string`: one `Word`, returning its text. -/
def stringP : Parser String :=
  mapP (tagP .Word) (fun t => (hd t).as_str)

/-- Embedding of `space`: one `Whitespace` token, discarded. -/
def space : Parser Unit := valueP () (tagP .Whitespace)

/-- Embedding of `digit1`: one `Word` parsed as a base-10 unsigned integer below
`bound` (`ErrorKind::MapRes` wrapped in the "number" context on
failure). -/
def digit1 (bound : Nat) : Parser Nat :=
  contextP "number"
    (map_resP (tagP .Word) (fun t => parseUInt bound (hd t).as_str))

/-- Embedding of `duration`: a `u64` number of seconds, then one whitespace
(`Duration::new(i, 0)` is modelled as the plain second count). -/
def duration : Parser Nat :=
  contextP "Duration"
    (terminatedP (mapP (digit1 U64) (fun i => i)) space)

/-- Embedding of `is_domain`: does this token text look like a domain name?
(`str::is_ascii`). -/
def is_domain (s : String) : Bool :=
  s.toList.all (fun c => c.toNat ≤ 127)

/-- Embedding of `domain`: one `Word` that passes `is_domain`, returning its text. -/
def domain : Parser String :=
  contextP "Domain name"
    (mapP (verifyP (tagP .Word) (fun t => is_domain (hd t).as_str))
      (fun t => (hd t).as_str))

/-- Embedding of `domain_space`: a domain, then one whitespace. -/
def domain_space : Parser String := terminatedP domain space

/-- Embedding of `class_space`: one of the four class keywords mapped through
`Class::from_str`, then one whitespace. -/
def class_space : Parser Class :=
  contextP "Class"
    (terminatedP
      (map_resP
        (altP [keyword "IN", keyword "CS", keyword "CH", keyword "HS"])
        (fun t => Class.from_str (hd t).as_str))
      space)

/-- Embedding of `ttl_space`: a duration, then one more whitespace. -/
def ttl_space : Parser Nat :=
  contextP "TTL" (terminatedP duration space)

/-- The parse result `Row`: optional owner name, TTL and class, plus the
mandatory resource data. -/
structure Row where
  name : Option String
  ttl : Option Nat
  class_ : Option Class
  resource : Resource
deriving DecidableEq, Repr

/-- Embedding of `mx_record`: integer preference, whitespace, exchange domain. -/
def mx_record : Parser MX :=
  mapP (tuple3P (digit1 U16) space domain)
    (fun x => ⟨x.1, x.2.2⟩)

/-- Embedding of `soa_record`: `domain, space, string, space, digit1, space, duration,
space, duration, space, duration, space, duration` in one tuple. -/
def soa_record : Parser SOA :=
  mapP
    (tuple3P domain space
      (tuple3P stringP space
        (tuple3P (digit1 U32) space
          (tuple3P duration space
            (tuple3P duration space
              (pairP duration (pairP space duration)))))))
    (fun x =>
      let rname := x.2.2.1
      let serial := x.2.2.2.2.1
      let refresh := x.2.2.2.2.2.2.1
      let retry := x.2.2.2.2.2.2.2.2.1
      let expire := x.2.2.2.2.2.2.2.2.2.2.1
      let minimum := x.2.2.2.2.2.2.2.2.2.2.2.2
      ⟨x.1, rname, serial, refresh, retry, expire, minimum⟩)

/-- Embedding of `rdata`: dispatch on the resource-type keyword, in the source's
order. -/
def rdata : Parser Resource :=
  contextP "Resource Data"
    (altP [
      prefixed "A" (mapP ipv4_addr Resource.A),
      prefixed "AAAA" (mapP ipv6_addr Resource.AAAA),
      prefixed "NS" (mapP domain (fun x => Resource.NS x)),
      prefixed "CNAME" (mapP domain (fun x => Resource.CNAME x)),
      prefixed "PTR" (mapP domain (fun x => Resource.PTR x)),
      prefixed "MX" (mapP mx_record Resource.MX),
      prefixed "SOA" (mapP soa_record Resource.SOA)])

/-- The output type of one row-shape alternative: `(name, (ttl, class),
resource)` as in the source's `tuple`. -/
abbrev ShapeOut := Option String × (Option Nat × Option Class) × Resource

/-- Row shape 1: name, then {ttl, class} in either order, then a
hard-committed RDATA. -/
def shape1 : Parser ShapeOut :=
  tuple3P (someP domain_space)
    (permutationP (someP ttl_space) (someP class_space))
    (cutP rdata)

/-- Row shape 2: name, then ttl only, then (soft) RDATA. -/
def shape2 : Parser ShapeOut :=
  tuple3P (someP domain_space)
    (pairP (someP ttl_space) (successP none))
    rdata

/-- Row shape 3: name, then class only, then (soft) RDATA. -/
def shape3 : Parser ShapeOut :=
  tuple3P (someP domain_space)
    (pairP (successP none) (someP class_space))
    rdata

/-- Row shape 4: name only, then (soft) RDATA. -/
def shape4 : Parser ShapeOut :=
  tuple3P (someP domain_space)
    (pairP (successP none) (successP none))
    rdata

/-- Row shape 5: no name, {ttl, class} in either order, then (soft)
RDATA. -/
def shape5 : Parser ShapeOut :=
  tuple3P (successP none)
    (permutationP (someP ttl_space) (someP class_space))
    rdata

/-- Row shape 6: no name, ttl only, then a hard-committed RDATA. -/
def shape6 : Parser ShapeOut :=
  tuple3P (successP none)
    (pairP (someP ttl_space) (successP none))
    (cutP rdata)

/-- Row shape 7: no name, class only, then (soft) RDATA. -/
def shape7 : Parser ShapeOut :=
  tuple3P (successP none)
    (pairP (successP none) (someP class_space))
    rdata

/-- Row shape 8: no name, no ttl, no class, then (soft) RDATA. -/
def shape8 : Parser ShapeOut :=
  tuple3P (successP none)
    (pairP (successP none) (successP none))
    rdata

/-- The ordered eight-shape alternative of `parse_row`. -/
def row_alt : Parser ShapeOut :=
  altP [shape1, shape2, shape3, shape4, shape5, shape6, shape7, shape8]

/-- Build the `Row` from a shape's output. -/
def mkRow (ret : ShapeOut) : Row :=
  ⟨ret.1, ret.2.1.1, ret.2.1.2, ret.2.2⟩

/-- Embedding of `parse_row`: the eight-shape alternative between incidental
whitespace, with the whole token sequence consumed. -/
def parse_row : Parser Row :=
  all_consumingP
    (delimitedP (many0P space) (mapP row_alt mkRow) (many0P space))

/-! ## Diagnostics formatter (`my_convert_error`)

Rendering one block per trace entry.  The embedding returns
`Option String`: `none` models a Rust panic (the source indexes
`substring[0]` — "TODO will this panic?" — which panics when the entry's
token slice is empty while the input is non-empty). -/

/-- A caret right-aligned in a field of the given width
(`format!("{:>width$}", '^')`). -/
def caretAt (width : Nat) : String :=
  String.mk (List.replicate (width - 1) ' ') ++ "^"

/-- The "got empty input" block written for a trace entry when the whole
input is empty. -/
def fmtEmptyKind (i : Nat) (k : VEKind) : String :=
  match k with
  | .Char c => toString i ++ ": expected '" ++ String.mk [c] ++ "', got empty input\n\n"
  | .Ctx s => toString i ++ ": in " ++ s ++ ", got empty input\n\n"
  | .Nom kind => toString i ++ ": in " ++ kind ++ ", got empty input\n\n"

/-- The block written for a trace entry with first token `t` when the
input is non-empty. -/
def fmtEntry (i : Nat) (t : Token) (k : VEKind) : String :=
  let lineNumber := t.pos.line
  let columnNumber := t.pos.col
  let line := t.pos.lineText
  match k with
  | .Char c =>
    match t.pos.fragment.toList with
    | actual :: _ =>
      toString i ++ ": at line " ++ toString lineNumber ++ ":\n" ++
        line ++ "\n" ++ caretAt columnNumber ++ "\n" ++
        "expected '" ++ String.mk [c] ++ "', found " ++ String.mk [actual] ++ "\n\n"
    | [] =>
      toString i ++ ": at line " ++ toString lineNumber ++ ":\n" ++
        line ++ "\n" ++ caretAt columnNumber ++ "\n" ++
        "expected '" ++ String.mk [c] ++ "', got end of input\n\n"
  | .Ctx s =>
    toString i ++ ": at line " ++ toString lineNumber ++ ", in " ++ s ++ ":\n" ++
      line ++ "\n" ++ caretAt columnNumber ++ "\n\n"
  | .Nom kind =>
    toString i ++ ": at line " ++ toString lineNumber ++ ", in " ++ kind ++ ":\n" ++
      line ++ "\n" ++ caretAt columnNumber ++ "\n\n"

/-- The enumerated rendering loop of `my_convert_error`. `none` models the
`substring[0]` panic on an empty trace-entry slice with non-empty input. -/
def convertGo (input : Tokens) : Nat → List (Tokens × VEKind) → Option String
  | _, [] => some ""
  | i, (substring, kind) :: rest =>
    if input.isEmpty then
      match convertGo input (i + 1) rest with
      | some s => some (fmtEmptyKind i kind ++ s)
      | none => none
    else
      match substring.head? with
      | none => none
      | some t =>
        match convertGo input (i + 1) rest with
        | some s => some (fmtEntry i t kind ++ s)
        | none => none

/-- Embedding of `my_convert_error`: render the failure trace into a diagnostic string
(`none` = panic). -/
def my_convert_error (input : Tokens) (e : VError) : Option String :=
  convertGo input 0 e.errors

/-! ## Entry point (`parse`) -/

/-- The match over `parse_row`'s result in `parse`: every failure arm
returns `Err(())` (the printed diagnostics are a side effect only). -/
def parseOutcome : Except NomErr (Tokens × Row) → Except Unit Row
  | .error (.error _) => .error ()
  | .error (.failure _) => .error ()
  | .error .incomplete => .error ()
  | .ok (_, row) => .ok row

/-- Embedding of `parse`: tokenise the input, run `parse_row`, collapse any failure to
`Err(())`. -/
def parse (input : String) : Except Unit Row :=
  parseOutcome (parse_row (tokenise input))

/-! ## Instrumentation for the statements -/

/-- Does a result of an `Option`-producing parser carry `None`? -/
def isOkNone {O : Type} : IResult (Option O) → Bool
  | .ok (_, none) => true
  | _ => false

/-- The presence pattern `(name?, ttl?, class?)` of a shape's output. -/
def pat (out : ShapeOut) : Bool × Bool × Bool :=
  (out.1.isSome, out.2.1.1.isSome, out.2.1.2.isSome)

/-- Either the result failed, or its output has the expected presence
pattern of the three optional leading fields. -/
def patOk (expected : Bool × Bool × Bool) (r : IResult ShapeOut) : Bool :=
  match r with
  | .ok (_, out) => pat out == expected
  | _ => true

/-- A `Word` token with placeholder position data (for hand-crafted token
sequences). -/
def tokW (s : String) : Token := ⟨.Word, ⟨1, 1, s, ""⟩⟩

/-- A `Whitespace` token with placeholder position data. -/
def tokWS : Token := ⟨.Whitespace, ⟨1, 1, " ", ""⟩⟩

end RustDns

deriving instance DecidableEq for Except

namespace RustDns

/-! ## Helper lemmas -/

theorem isSoftError_iff {O : Type} (r : IResult O) :
    isSoftError r = true ↔ ∃ e, r = .error (.error e) := by
  cases r with
  | ok p => simp [isSoftError]
  | error e =>
    cases e with
    | error e' => simp [isSoftError]
    | failure e' => simp [isSoftError]
    | incomplete => simp [isSoftError]

/-! `rdata` contains no `cut`, and none of its sub-parsers can produce an
`Err::Failure`.  The following lemmas establish this compositionally. -/

theorem isHardError_error_eq {O O2 : Type} (e : NomErr) :
    isHardError (O := O) (.error e) = isHardError (O := O2) (.error e) := by
  cases e <;> rfl

theorem noHard_tagP (tt : TokenType) : ∀ i, isHardError (tagP tt i) = false := by
  intro i
  unfold tagP
  cases i with
  | nil => rfl
  | cons t rest =>
    dsimp only
    split <;> rfl

theorem noHard_successP {O : Type} (v : O) :
    ∀ i, isHardError (successP v i) = false := by
  intro i; rfl

theorem noHard_mapP {O O2 : Type} {f : Parser O} (g : O → O2)
    (hf : ∀ i, isHardError (f i) = false) :
    ∀ i, isHardError (mapP f g i) = false := by
  intro i
  have h := hf i
  unfold mapP
  cases hfi : f i with
  | ok p => obtain ⟨i1, o⟩ := p; rfl
  | error e => rw [hfi] at h; exact (isHardError_error_eq e).trans h

theorem noHard_map_resP {O O2 : Type} {f : Parser O} (g : O → Option O2)
    (hf : ∀ i, isHardError (f i) = false) :
    ∀ i, isHardError (map_resP f g i) = false := by
  intro i
  have h := hf i
  unfold map_resP
  cases hfi : f i with
  | ok p =>
    obtain ⟨i1, o⟩ := p
    dsimp only
    cases g o <;> rfl
  | error e => rw [hfi] at h; exact (isHardError_error_eq e).trans h

theorem noHard_verifyP {O : Type} {f : Parser O} (pred : O → Bool)
    (hf : ∀ i, isHardError (f i) = false) :
    ∀ i, isHardError (verifyP f pred i) = false := by
  intro i
  have h := hf i
  unfold verifyP
  cases hfi : f i with
  | ok p =>
    obtain ⟨i1, o⟩ := p
    dsimp only
    split <;> rfl
  | error e => rw [hfi] at h; exact (isHardError_error_eq e).trans h

theorem noHard_valueP {O O2 : Type} {f : Parser O} (v : O2)
    (hf : ∀ i, isHardError (f i) = false) :
    ∀ i, isHardError (valueP v f i) = false :=
  noHard_mapP _ hf

theorem noHard_contextP {O : Type} {f : Parser O} (name : String)
    (hf : ∀ i, isHardError (f i) = false) :
    ∀ i, isHardError (contextP name f i) = false := by
  intro i
  have h := hf i
  unfold contextP
  cases hfi : f i with
  | ok p => rfl
  | error e =>
    cases e with
    | error e' => rfl
    | failure e' => rw [hfi] at h; simp [isHardError] at h
    | incomplete => rfl

theorem noHard_pairP {O1 O2 : Type} {f : Parser O1} {g : Parser O2}
    (hf : ∀ i, isHardError (f i) = false)
    (hg : ∀ i, isHardError (g i) = false) :
    ∀ i, isHardError (pairP f g i) = false := by
  intro i
  have h := hf i
  unfold pairP
  cases hfi : f i with
  | ok p =>
    obtain ⟨i1, o1⟩ := p
    have h2 := hg i1
    dsimp only
    cases hgi : g i1 with
    | ok q => obtain ⟨i2, o2⟩ := q; rfl
    | error e => rw [hgi] at h2; exact (isHardError_error_eq e).trans h2
  | error e => rw [hfi] at h; exact (isHardError_error_eq e).trans h

theorem noHard_precededP {O1 O2 : Type} {f : Parser O1} {g : Parser O2}
    (hf : ∀ i, isHardError (f i) = false)
    (hg : ∀ i, isHardError (g i) = false) :
    ∀ i, isHardError (precededP f g i) = false :=
  noHard_mapP _ (noHard_pairP hf hg)

theorem noHard_terminatedP {O1 O2 : Type} {f : Parser O1} {g : Parser O2}
    (hf : ∀ i, isHardError (f i) = false)
    (hg : ∀ i, isHardError (g i) = false) :
    ∀ i, isHardError (terminatedP f g i) = false :=
  noHard_mapP _ (noHard_pairP hf hg)

theorem noHard_tuple3P {O1 O2 O3 : Type} {f : Parser O1} {g : Parser O2}
    {h : Parser O3}
    (hf : ∀ i, isHardError (f i) = false)
    (hg : ∀ i, isHardError (g i) = false)
    (hh : ∀ i, isHardError (h i) = false) :
    ∀ i, isHardError (tuple3P f g h i) = false := by
  intro i
  have hx := hf i
  unfold tuple3P
  cases hfi : f i with
  | ok p =>
    obtain ⟨i1, o1⟩ := p
    have h2 := noHard_pairP hg hh i1
    dsimp only
    cases hgi : pairP g h i1 with
    | ok q => obtain ⟨i2, o2⟩ := q; rfl
    | error e => rw [hgi] at h2; exact (isHardError_error_eq e).trans h2
  | error e => rw [hfi] at hx; exact (isHardError_error_eq e).trans hx

theorem noHard_altGo {O : Type} (ps : List (Parser O))
    (hps : ∀ p ∈ ps, ∀ i, isHardError (p i) = false) :
    ∀ acc i, isHardError (altGo acc ps i) = false := by
  induction ps with
  | nil =>
    intro acc i
    unfold altGo
    cases acc <;> rfl
  | cons p rest ih =>
    intro acc i
    have hp := hps p (by simp)
    have hrest := ih (fun q hq => hps q (by simp [hq]))
    have h := hp i
    unfold altGo
    cases hfi : p i with
    | ok r => rfl
    | error e =>
      cases e with
      | error e' => exact hrest _ i
      | failure e' => rw [hfi] at h; simp [isHardError] at h
      | incomplete => rfl

theorem noHard_altP {O : Type} (ps : List (Parser O))
    (hps : ∀ p ∈ ps, ∀ i, isHardError (p i) = false) :
    ∀ i, isHardError (altP ps i) = false :=
  noHard_altGo ps hps none

theorem noHard_keyword (w : String) :
    ∀ i, isHardError (keyword w i) = false :=
  noHard_verifyP _ (noHard_tagP .Word)

theorem noHard_space : ∀ i, isHardError (space i) = false :=
  noHard_valueP _ (noHard_tagP .Whitespace)

theorem noHard_stringP : ∀ i, isHardError (stringP i) = false :=
  noHard_mapP _ (noHard_tagP .Word)

theorem noHard_digit1 (bound : Nat) :
    ∀ i, isHardError (digit1 bound i) = false :=
  noHard_contextP _ (noHard_map_resP _ (noHard_tagP .Word))

theorem noHard_duration : ∀ i, isHardError (duration i) = false :=
  noHard_contextP _
    (noHard_terminatedP (noHard_mapP _ (noHard_digit1 U64)) noHard_space)

theorem noHard_domain : ∀ i, isHardError (domain i) = false :=
  noHard_contextP _
    (noHard_mapP _ (noHard_verifyP _ (noHard_tagP .Word)))

theorem noHard_ipv4_addr : ∀ i, isHardError (ipv4_addr i) = false :=
  noHard_contextP _ (noHard_map_resP _ (noHard_tagP .Word))

theorem noHard_ipv6_addr : ∀ i, isHardError (ipv6_addr i) = false :=
  noHard_contextP _ (noHard_map_resP _ (noHard_tagP .Word))

theorem noHard_mx_record : ∀ i, isHardError (mx_record i) = false :=
  noHard_mapP _ (noHard_tuple3P (noHard_digit1 U16) noHard_space noHard_domain)

theorem noHard_soa_record : ∀ i, isHardError (soa_record i) = false :=
  noHard_mapP _
    (noHard_tuple3P noHard_domain noHard_space
      (noHard_tuple3P noHard_stringP noHard_space
        (noHard_tuple3P (noHard_digit1 U32) noHard_space
          (noHard_tuple3P noHard_duration noHard_space
            (noHard_tuple3P noHard_duration noHard_space
              (noHard_pairP noHard_duration
                (noHard_pairP noHard_space noHard_duration)))))))

theorem noHard_prefixed {O : Type} (pre : String) {f : Parser O}
    (hf : ∀ i, isHardError (f i) = false) :
    ∀ i, isHardError (prefixed pre f i) = false :=
  noHard_precededP (noHard_pairP (noHard_keyword pre) (noHard_tagP .Whitespace)) hf

theorem noHard_rdata : ∀ i, isHardError (rdata i) = false := by
  refine noHard_contextP _ (noHard_altP _ ?_)
  intro p hp
  simp only [List.mem_cons, List.not_mem_nil, or_false] at hp
  rcases hp with h | h | h | h | h | h | h <;> subst h
  · exact noHard_prefixed _ (noHard_mapP _ noHard_ipv4_addr)
  · exact noHard_prefixed _ (noHard_mapP _ noHard_ipv6_addr)
  · exact noHard_prefixed _ (noHard_mapP _ noHard_domain)
  · exact noHard_prefixed _ (noHard_mapP _ noHard_domain)
  · exact noHard_prefixed _ (noHard_mapP _ noHard_domain)
  · exact noHard_prefixed _ (noHard_mapP _ noHard_mx_record)
  · exact noHard_prefixed _ (noHard_mapP _ noHard_soa_record)

/-! Inversion lemmas: what a successful composite parse tells us about its
components. -/

theorem pairP_ok {O1 O2 : Type} {f : Parser O1} {g : Parser O2}
    {i i2 : Tokens} {o : O1 × O2} (h : pairP f g i = .ok (i2, o)) :
    ∃ i1, f i = .ok (i1, o.1) ∧ g i1 = .ok (i2, o.2) := by
  unfold pairP at h
  cases hfi : f i with
  | error e => rw [hfi] at h; simp at h
  | ok p =>
    obtain ⟨i1, o1⟩ := p
    rw [hfi] at h
    dsimp only at h
    cases hgi : g i1 with
    | error e => rw [hgi] at h; simp at h
    | ok q =>
      obtain ⟨i2', o2⟩ := q
      rw [hgi] at h
      simp only [Except.ok.injEq, Prod.mk.injEq] at h
      obtain ⟨h1, h2⟩ := h
      subst h1
      exact ⟨i1, by simp [← h2, hfi], by simp [← h2, hgi]⟩

theorem tuple3P_ok {O1 O2 O3 : Type} {f : Parser O1} {g : Parser O2}
    {h : Parser O3} {i i2 : Tokens} {o : O1 × O2 × O3}
    (hok : tuple3P f g h i = .ok (i2, o)) :
    ∃ i1, f i = .ok (i1, o.1) ∧ pairP g h i1 = .ok (i2, o.2) := by
  unfold tuple3P at hok
  cases hfi : f i with
  | error e => rw [hfi] at hok; simp at hok
  | ok p =>
    obtain ⟨i1, o1⟩ := p
    rw [hfi] at hok
    dsimp only at hok
    cases hgi : pairP g h i1 with
    | error e => rw [hgi] at hok; simp at hok
    | ok q =>
      obtain ⟨i2', o23⟩ := q
      rw [hgi] at hok
      simp only [Except.ok.injEq, Prod.mk.injEq] at hok
      obtain ⟨h1, h2⟩ := hok
      subst h1
      exact ⟨i1, by simp [← h2, hfi], by simp [← h2, hgi]⟩

theorem someP_ok_isSome {O : Type} {f : Parser O} {i i2 : Tokens}
    {o : Option O} (h : someP f i = .ok (i2, o)) : o.isSome = true := by
  unfold someP at h
  cases hfi : f i with
  | error e => rw [hfi] at h; simp at h
  | ok p =>
    obtain ⟨i1, o1⟩ := p
    rw [hfi] at h
    simp only [Except.ok.injEq, Prod.mk.injEq] at h
    rw [← h.2]
    rfl

theorem successP_ok {O : Type} {v : O} {i i2 : Tokens} {o : O}
    (h : successP v i = .ok (i2, o)) : o = v := by
  unfold successP at h
  simp only [Except.ok.injEq, Prod.mk.injEq] at h
  exact h.2.symm

theorem permutationP_ok {O1 O2 : Type} {f : Parser O1} {g : Parser O2}
    {i i2 : Tokens} {o : O1 × O2}
    (h : permutationP f g i = .ok (i2, o)) :
    (∃ j k, f j = .ok (k, o.1)) ∧ (∃ j k, g j = .ok (k, o.2)) := by
  unfold permutationP at h
  cases hfi : f i with
  | ok p =>
    obtain ⟨i1, o1⟩ := p
    rw [hfi] at h
    dsimp only at h
    cases hgi : g i1 with
    | ok q =>
      obtain ⟨i2', o2⟩ := q
      rw [hgi] at h
      simp only [Except.ok.injEq, Prod.mk.injEq] at h
      obtain ⟨h1, h2⟩ := h
      refine ⟨⟨i, i1, ?_⟩, ⟨i1, i2', ?_⟩⟩
      · rw [hfi, ← h2]
      · rw [hgi, ← h2]
    | error e =>
      rw [hgi] at h
      cases e with
      | error e' => simp at h
      | failure e' => simp at h
      | incomplete => simp at h
  | error e =>
    rw [hfi] at h
    cases e with
    | error ef =>
      dsimp only at h
      cases hgi : g i with
      | ok q =>
        obtain ⟨i1, o2⟩ := q
        rw [hgi] at h
        dsimp only at h
        cases hfi2 : f i1 with
        | ok r =>
          obtain ⟨i2', o1⟩ := r
          rw [hfi2] at h
          simp only [Except.ok.injEq, Prod.mk.injEq] at h
          obtain ⟨h1, h2⟩ := h
          refine ⟨⟨i1, i2', ?_⟩, ⟨i, i1, ?_⟩⟩
          · rw [hfi2, ← h2]
          · rw [hgi, ← h2]
        | error e2 =>
          rw [hfi2] at h
          cases e2 with
          | error e' => simp at h
          | failure e' => simp at h
          | incomplete => simp at h
      | error eg =>
        rw [hgi] at h
        cases eg with
        | error e' => simp at h
        | failure e' => simp at h
        | incomplete => simp at h
    | failure ef => simp at h
    | incomplete => simp at h


/-! Lemmas about `some` and the presence patterns of the eight shapes. -/

theorem someP_map (O : Type) (f : Parser O) (i : Tokens) :
    someP f i = Except.map (fun p => (p.1, some p.2)) (f i) := by
  unfold someP Except.map
  cases f i with
  | ok p => obtain ⟨a, b⟩ := p; rfl
  | error e => rfl

theorem someP_never_none (O : Type) (f : Parser O) (i : Tokens) :
    isOkNone (someP f i) = false := by
  unfold someP isOkNone
  cases f i with
  | ok p => obtain ⟨a, b⟩ := p; rfl
  | error e => rfl

theorem patOk_shape1 (i : Tokens) : patOk (true, true, true) (shape1 i) = true := by
  cases h : shape1 i with
  | error e => rfl
  | ok p =>
    obtain ⟨i2, out⟩ := p
    unfold shape1 at h
    obtain ⟨ia, hname, hrest⟩ := tuple3P_ok h
    obtain ⟨ib, hperm, hmid⟩ := pairP_ok hrest
    obtain ⟨⟨j, k, httl⟩, ⟨j2, k2, hcls⟩⟩ := permutationP_ok hperm
    have hn := someP_ok_isSome hname
    have ht := someP_ok_isSome httl
    have hc := someP_ok_isSome hcls
    simp only [patOk, pat]
    rw [hn, ht, hc]
    rfl

theorem patOk_shape2 (i : Tokens) : patOk (true, true, false) (shape2 i) = true := by
  cases h : shape2 i with
  | error e => rfl
  | ok p =>
    obtain ⟨i2, out⟩ := p
    unfold shape2 at h
    obtain ⟨ia, hname, hrest⟩ := tuple3P_ok h
    obtain ⟨ib, hmid, hlast⟩ := pairP_ok hrest
    obtain ⟨ic, httl, hnone⟩ := pairP_ok hmid
    have hn := someP_ok_isSome hname
    have ht := someP_ok_isSome httl
    have hc := successP_ok hnone
    simp only [patOk, pat]
    rw [hn, ht, hc]
    rfl

theorem patOk_shape3 (i : Tokens) : patOk (true, false, true) (shape3 i) = true := by
  cases h : shape3 i with
  | error e => rfl
  | ok p =>
    obtain ⟨i2, out⟩ := p
    unfold shape3 at h
    obtain ⟨ia, hname, hrest⟩ := tuple3P_ok h
    obtain ⟨ib, hmid, hlast⟩ := pairP_ok hrest
    obtain ⟨ic, hnone, hcls⟩ := pairP_ok hmid
    have hn := someP_ok_isSome hname
    have ht := successP_ok hnone
    have hc := someP_ok_isSome hcls
    simp only [patOk, pat]
    rw [hn, ht, hc]
    rfl

theorem patOk_shape4 (i : Tokens) : patOk (true, false, false) (shape4 i) = true := by
  cases h : shape4 i with
  | error e => rfl
  | ok p =>
    obtain ⟨i2, out⟩ := p
    unfold shape4 at h
    obtain ⟨ia, hname, hrest⟩ := tuple3P_ok h
    obtain ⟨ib, hmid, hlast⟩ := pairP_ok hrest
    obtain ⟨ic, hnone1, hnone2⟩ := pairP_ok hmid
    have hn := someP_ok_isSome hname
    have ht := successP_ok hnone1
    have hc := successP_ok hnone2
    simp only [patOk, pat]
    rw [hn, ht, hc]
    rfl

theorem patOk_shape5 (i : Tokens) : patOk (false, true, true) (shape5 i) = true := by
  cases h : shape5 i with
  | error e => rfl
  | ok p =>
    obtain ⟨i2, out⟩ := p
    unfold shape5 at h
    obtain ⟨ia, hname, hrest⟩ := tuple3P_ok h
    obtain ⟨ib, hperm, hmid⟩ := pairP_ok hrest
    obtain ⟨⟨j, k, httl⟩, ⟨j2, k2, hcls⟩⟩ := permutationP_ok hperm
    have hn := successP_ok hname
    have ht := someP_ok_isSome httl
    have hc := someP_ok_isSome hcls
    simp only [patOk, pat]
    rw [hn, ht, hc]
    rfl

theorem patOk_shape6 (i : Tokens) : patOk (false, true, false) (shape6 i) = true := by
  cases h : shape6 i with
  | error e => rfl
  | ok p =>
    obtain ⟨i2, out⟩ := p
    unfold shape6 at h
    obtain ⟨ia, hname, hrest⟩ := tuple3P_ok h
    obtain ⟨ib, hmid, hlast⟩ := pairP_ok hrest
    obtain ⟨ic, httl, hnone⟩ := pairP_ok hmid
    have hn := successP_ok hname
    have ht := someP_ok_isSome httl
    have hc := successP_ok hnone
    simp only [patOk, pat]
    rw [hn, ht, hc]
    rfl

theorem patOk_shape7 (i : Tokens) : patOk (false, false, true) (shape7 i) = true := by
  cases h : shape7 i with
  | error e => rfl
  | ok p =>
    obtain ⟨i2, out⟩ := p
    unfold shape7 at h
    obtain ⟨ia, hname, hrest⟩ := tuple3P_ok h
    obtain ⟨ib, hmid, hlast⟩ := pairP_ok hrest
    obtain ⟨ic, hnone, hcls⟩ := pairP_ok hmid
    have hn := successP_ok hname
    have ht := successP_ok hnone
    have hc := someP_ok_isSome hcls
    simp only [patOk, pat]
    rw [hn, ht, hc]
    rfl

theorem patOk_shape8 (i : Tokens) : patOk (false, false, false) (shape8 i) = true := by
  cases h : shape8 i with
  | error e => rfl
  | ok p =>
    obtain ⟨i2, out⟩ := p
    unfold shape8 at h
    obtain ⟨ia, hname, hrest⟩ := tuple3P_ok h
    obtain ⟨ib, hmid, hlast⟩ := pairP_ok hrest
    obtain ⟨ic, hnone1, hnone2⟩ := pairP_ok hmid
    have hn := successP_ok hname
    have ht := successP_ok hnone1
    have hc := successP_ok hnone2
    simp only [patOk, pat]
    rw [hn, ht, hc]
    rfl

/-! The rendering loop of `my_convert_error` cannot fail when the input is
empty, or when every trace entry carries a nonempty token slice. -/

theorem convertGo_isSome (input : Tokens) :
    ∀ (l : List (Tokens × VEKind)) (i : Nat),
      (input.isEmpty || l.all (fun p => !p.1.isEmpty)) = true →
      (convertGo input i l).isSome = true := by
  intro l
  induction l with
  | nil => intro i _; rfl
  | cons head tl ih =>
    intro i h
    obtain ⟨sub, kind⟩ := head
    unfold convertGo
    by_cases hin : input.isEmpty = true
    · have hrec := ih (i + 1) (by simp [hin])
      simp only [hin, if_true]
      cases hr : convertGo input (i + 1) tl with
      | some s => rfl
      | none => rw [hr] at hrec; simp at hrec
    · have hb : input.isEmpty = false := by simpa using hin
      rw [hb] at h
      simp only [Bool.false_or, List.all_cons, Bool.and_eq_true, Bool.not_eq_true'] at h
      obtain ⟨h1, h2⟩ := h
      have hrec := ih (i + 1) (by simp [h2])
      simp only [hb, if_false]
      cases sub with
      | nil => simp [List.isEmpty] at h1
      | cons t ts =>
        simp only [List.head?]
        cases hr : convertGo input (i + 1) tl with
        | some s => rfl
        | none => rw [hr] at hrec; simp at hrec


/-! ## Claims -/

/-- Hand-crafted token sequence `example ␣ 300 ␣ ␣ NS`: the only way to
make the shape-2 prefix (name + ttl) succeed, since `ttl_space` consumes
two whitespace tokens. -/
def tksC2 : Tokens := [tokW "example", tokWS, tokW "300", tokWS, tokWS, tokW "NS"]

/-- Hand-crafted token sequence `300 ␣ ␣ NS`: a ttl-only prefix for
shape 6 followed by a lone `NS` keyword whose RDATA body is missing. -/
def tksC6shape : Tokens := [tokW "300", tokWS, tokWS, tokW "NS"]

/-- The soft error `rdata` produces on the lone `NS` keyword: the `SOA`
branch's keyword mismatch (`Verify`), the `Alt` exhaustion entry, and the
"Resource Data" context. -/
def errLoneNS : VError :=
  ⟨[([tokW "NS"], .Nom "Verify"), ([tokW "NS"], .Nom "Alt"),
    ([tokW "NS"], .Ctx "Resource Data")]⟩

/-- C1 counterexample: with the supported keyword `A` matched and a
malformed IPv4 body (`X`), `rdata` fails with a recoverable `Err::Error`,
not a hard `Err::Failure`; and at the row level the input `NS NS` — whose
shape-4 attempt matches the keyword `NS` and then fails its RDATA body —
falls through to shape 8 and parses successfully, so the failure is very
much a candidate for falling through to a later row shape. -/
theorem C1_rdata_soft_cex :
    isSoftError (rdata [tokW "A", tokWS, tokW "X"]) = true ∧
    isHardError (rdata [tokW "A", tokWS, tokW "X"]) = false ∧
    parse "NS NS" = .ok ⟨none, none, none, .NS "NS"⟩ := by
  decide

/-- C1 (amended): when a matched type's RDATA body fails, the `rdata`
dispatcher fails softly: there is no `cut` inside `rdata`, so for every
token sequence the result is never a hard `Err::Failure` — the remaining
rdata alternatives are still tried (all failing on keyword mismatch), and
at the row level the error remains a candidate for backtracking into a
later row shape unless the enclosing shape wrapped `rdata` in `cut`. -/
theorem C1_rdata_never_hard : ∀ input : Tokens, isHardError (rdata input) = false :=
  noHard_rdata

/-- C2 counterexample: on `example ␣ 300 ␣ ␣ NS` the shape-2 prefix
(name present, then TTL present, class absent) succeeds, leaving only the
lone keyword `NS` on which RDATA parsing fails; yet `parse_row` does not
report a hard failure — shape 2's `rdata` is not wrapped in `cut`, so the
parser proceeds to attempt shapes 3 through 8, and the reported error is
the soft `Err::Error` of the exhausted alternative whose first trace entry
points at the whole input (shape 8's attempt), not at the RDATA position. -/
theorem C2_shape2_soft_cex :
    pairP (someP domain_space)
        (pairP (someP ttl_space) (successP (none : Option Class))) tksC2 =
      .ok ([tokW "NS"], (some "example", (some 300, none))) ∧
    isOk (rdata [tokW "NS"]) = false ∧
    isHardError (parse_row tksC2) = false ∧
    isSoftError (parse_row tksC2) = true ∧
    errHeadTokens (parse_row tksC2) = some tksC2 := by
  decide

/-- C2 (amended): the hard commit after a ttl-only prefix belongs to
shape 6 (no name, then TTL), not shape 2: whenever shapes 1–5 fail softly,
the shape-6 prefix (`some ttl_space`) succeeds, and `rdata` then fails
softly on the rest, the row alternative stops immediately with a hard
`Err::Failure` carrying exactly the RDATA error — shapes 7 and 8 are not
attempted and cannot override it. -/
theorem C2_shape6_hard_commit (tks i : Tokens) (o : Option Nat) (e : VError)
    (h1 : isSoftError (shape1 tks) = true)
    (h2 : isSoftError (shape2 tks) = true)
    (h3 : isSoftError (shape3 tks) = true)
    (h4 : isSoftError (shape4 tks) = true)
    (h5 : isSoftError (shape5 tks) = true)
    (h6 : someP ttl_space tks = .ok (i, o))
    (h7 : rdata i = .error (.error e)) :
    row_alt tks = .error (.failure e) := by
  obtain ⟨e1, he1⟩ := (isSoftError_iff _).mp h1
  obtain ⟨e2, he2⟩ := (isSoftError_iff _).mp h2
  obtain ⟨e3, he3⟩ := (isSoftError_iff _).mp h3
  obtain ⟨e4, he4⟩ := (isSoftError_iff _).mp h4
  obtain ⟨e5, he5⟩ := (isSoftError_iff _).mp h5
  have hs6 : shape6 tks = .error (.failure e) := by
    simp only [shape6, tuple3P, pairP, successP, cutP, h6, h7]
  unfold row_alt altP
  simp only [altGo, he1, he2, he3, he4, he5, hs6, VError.orE]

/-- Witness for the C2 amendment: on `300 ␣ ␣ NS` every earlier shape
fails softly, the ttl-only prefix succeeds, the RDATA body fails, and
`row_alt` hard-fails with exactly the RDATA error. -/
theorem C2_shape6_hard_commit_witness :
    row_alt tksC6shape = .error (.failure errLoneNS) :=
  C2_shape6_hard_commit tksC6shape [tokW "NS"] (some 300) errLoneNS
    (by decide) (by decide) (by decide) (by decide) (by decide)
    (by decide) (by decide)

/-- C3 (code bug): `ttl_space` does not consume one `Word` plus one
mandatory `Whitespace` — because `duration` already consumes a trailing
whitespace and `ttl_space` is `terminated(duration, space)`, it demands a
second whitespace token.  On the claim's input `300 ␣ IN` it fails
instead of succeeding, and it only succeeds on the malformed sequence
`300 ␣ ␣ IN` (two consecutive whitespace tokens, which the tokenizer can
never produce since maximal whitespace runs form a single token). -/
theorem C3_ttl_space_double_space_bug :
    isOk (ttl_space [tokW "300", tokWS, tokW "IN"]) = false ∧
    ttl_space [tokW "300", tokWS, tokWS, tokW "IN"] = .ok ([tokW "IN"], 300) := by
  decide

/-- C4 (code bug): the `SOA` RDATA grammar rejects seven space-separated
fields — each of the four `duration` fields consumes its own trailing
whitespace while `soa_record` inserts `space` separators besides, so the
dispatcher fails on `SOA m r 1 2 3 4 5` with single separators and only
accepts doubled whitespace between refresh/retry/expire/minimum plus a
trailing whitespace after minimum. -/
theorem C4_soa_spacing_bug :
    isOk (rdata [tokW "SOA", tokWS, tokW "m", tokWS, tokW "r", tokWS,
      tokW "1", tokWS, tokW "2", tokWS, tokW "3", tokWS, tokW "4", tokWS,
      tokW "5"]) = false ∧
    rdata [tokW "SOA", tokWS, tokW "m", tokWS, tokW "r", tokWS, tokW "1",
      tokWS, tokW "2", tokWS, tokWS, tokW "3", tokWS, tokWS, tokW "4",
      tokWS, tokWS, tokW "5", tokWS] =
      .ok ([], .SOA ⟨"m", "r", 1, 2, 3, 4, 5⟩) := by
  decide

/-- C5 counterexample: `"        NS      VAXA"` parses to a `Row`, yet
appending the non-whitespace garbage `"x"` does not make parsing fail with
a residual-input error — the garbage merges into the final word and the
line parses successfully to a different `Row`. -/
theorem C5_trailing_garbage_cex :
    parse "        NS      VAXA" = .ok ⟨none, none, none, .NS "VAXA"⟩ ∧
    parse "        NS      VAXAx" = .ok ⟨none, none, none, .NS "VAXAx"⟩ := by
  decide

/-- C5 (amended): `parse_row` yields a `Row` only when the entire token
sequence is consumed (`all_consuming`): every successful parse leaves an
empty remainder, so no `Row` is ever built from a proper prefix of the
tokens.  Trailing garbage can, however, change the tokenization or be
absorbed by a different shape and still produce a (different) `Row`
rather than a residual-input error. -/
theorem C5_success_consumes_all (tks : Tokens)
    (h : isOk (parse_row tks) = true) :
    remainder (parse_row tks) = some [] := by
  unfold parse_row all_consumingP at h ⊢
  cases hin : delimitedP (many0P space) (mapP row_alt mkRow) (many0P space) tks with
  | error e => rw [hin] at h; simp [isOk] at h
  | ok p =>
    obtain ⟨i, o⟩ := p
    rw [hin] at h
    dsimp only at h ⊢
    by_cases hl : i.length = 0
    · rw [if_pos hl]
      have hi : i = [] := List.length_eq_zero.mp hl
      subst hi
      rfl
    · rw [if_neg hl] at h
      simp [isOk] at h

/-- Witness for the C5 amendment at a successfully parsing line. -/
theorem C5_success_consumes_all_witness :
    remainder (parse_row (tokenise "        NS      VAXA")) = some [] :=
  C5_success_consumes_all (tokenise "        NS      VAXA") (by decide)

/-- C6 (code bug): both orderings of TTL and class fail to parse at the
line level — `ttl_space` demands a second consecutive whitespace token
that tokenisation never produces — so neither order yields a `Row` at all;
on hand-crafted token sequences with the doubled whitespace after the TTL,
shape 1's `permutation` does accept both orders and produces identical
`Row` values, confirming the intended symmetry behind the bug. -/
theorem C6_ttl_class_order_bug :
    parse "example.com. 300 IN A 1.2.3.4" = .error () ∧
    parse "example.com. IN 300 A 1.2.3.4" = .error () ∧
    parse_row [tokW "n", tokWS, tokW "300", tokWS, tokWS, tokW "IN", tokWS,
        tokW "A", tokWS, tokW "1.2.3.4"] =
      .ok ([], ⟨some "n", some 300, some .IN, .A ⟨1, 2, 3, 4⟩⟩) ∧
    parse_row [tokW "n", tokWS, tokW "IN", tokWS, tokW "300", tokWS, tokWS,
        tokW "A", tokWS, tokW "1.2.3.4"] =
      .ok ([], ⟨some "n", some 300, some .IN, .A ⟨1, 2, 3, 4⟩⟩) := by
  decide

/-- C7: the line `"A       A       26.3.0.103"` parses to exactly
`Row{name: Some("A"), ttl: None, class: None, resource: A(26.3.0.103)}`:
the first bare word becomes the owner name and the second the type
keyword. -/
theorem C7_name_shadows_keyword :
    parse "A       A       26.3.0.103" =
      .ok ⟨some "A", none, none, .A ⟨26, 3, 0, 103⟩⟩ := by
  decide

/-- C8 counterexample: the entry point's returned failure signal is the
bare unit error `Err(())` for every failure arm, so the `Incomplete` arm
and the syntax-error arm return identical values — a caller cannot tell
the two failure kinds apart from the returned value alone (the distinction
exists only in text printed to stdout).  Concrete failing inputs of both
flavours described by the spec collapse to the same `Err(())`. -/
theorem C8_signal_indistinguishable_cex :
    parseOutcome (.error .incomplete) = parseOutcome (.error (.error ⟨[]⟩)) ∧
    parse "" = .error () ∧
    parse "        3600" = .error () := by
  decide

/-- C8 (amended): `parse` collapses every failure — recoverable error,
hard failure, or incomplete input — to the same `Err(())`; the
syntax/incomplete distinction is printed, not returned. -/
theorem C8_all_failures_collapse : ∀ e : NomErr, parseOutcome (.error e) = .error () := by
  intro e
  cases e <;> rfl

/-- C9 counterexample: with a non-empty input, a malformed trace whose
entry holds an empty token slice makes `my_convert_error` panic (the
source's `substring[0]` indexing, modelled as `none`), rather than
returning a fallback message. -/
theorem C9_empty_slice_panics_cex :
    my_convert_error [tokW "x"] ⟨[([], .Ctx "X")]⟩ = none := by
  decide

/-- C9 (amended): `my_convert_error` returns a message without panicking
on an empty input (one "got empty input" note per trace entry, never
indexing into the input) and, for non-empty inputs, whenever every trace
entry holds a nonempty token slice; only a non-empty input combined with
an empty trace-entry slice panics. -/
theorem C9_no_panic_conditions (input : Tokens) (e : VError)
    (h : (input.isEmpty || e.errors.all (fun p => !p.1.isEmpty)) = true) :
    (my_convert_error input e).isSome = true :=
  convertGo_isSome input e.errors 0 h

/-- Witness for the C9 amendment: an empty input never panics, whatever
the trace holds. -/
theorem C9_no_panic_conditions_witness :
    (my_convert_error []
      ⟨[([], .Ctx "X"), ([], .Nom "Tag"), ([], .Char 'x')]⟩).isSome = true :=
  C9_no_panic_conditions [] ⟨[([], .Ctx "X"), ([], .Nom "Tag"), ([], .Char 'x')]⟩
    (by decide)

/-- C10: the `some` combinator succeeds exactly when its inner parser
succeeds, wrapping the value in `Some` (and therefore never yields
`None`); consequently every successful run of each of the eight row
shapes produces exactly its advertised presence pattern of
`(name, ttl, class)` — in particular shape 1 only matches when both a TTL
and a class were actually parsed. -/
theorem C10_someP_and_shape_patterns :
    (∀ (O : Type) (f : Parser O) (i : Tokens),
      someP f i = Except.map (fun p => (p.1, some p.2)) (f i)) ∧
    (∀ (O : Type) (f : Parser O) (i : Tokens), isOkNone (someP f i) = false) ∧
    (∀ i : Tokens, patOk (true, true, true) (shape1 i) = true) ∧
    (∀ i : Tokens, patOk (true, true, false) (shape2 i) = true) ∧
    (∀ i : Tokens, patOk (true, false, true) (shape3 i) = true) ∧
    (∀ i : Tokens, patOk (true, false, false) (shape4 i) = true) ∧
    (∀ i : Tokens, patOk (false, true, true) (shape5 i) = true) ∧
    (∀ i : Tokens, patOk (false, true, false) (shape6 i) = true) ∧
    (∀ i : Tokens, patOk (false, false, true) (shape7 i) = true) ∧
    (∀ i : Tokens, patOk (false, false, false) (shape8 i) = true) :=
  ⟨someP_map, someP_never_none, patOk_shape1, patOk_shape2, patOk_shape3,
    patOk_shape4, patOk_shape5, patOk_shape6, patOk_shape7, patOk_shape8⟩

end RustDns
